import Mathlib

/-!
Verification development for the edu-platform backend: the Rating /
ranking engine (src/models/Rating.js, src/routes/ratings.js, the
homework-grading aggregator of the homework route file), the points
economy (bonus-task completion route), and the reward claim gate
(src/routes/rewards.js).

JavaScript numbers are modelled as exact rationals (ℚ); `Math.round`
is modelled as `jsRound`, rounding half-up (floor of x + 1/2), which
matches `Math.round` on every value arising here.  Tally counters are
modelled as ℕ, matching their use as list lengths and increments.
Mongo documents become Lean structures; a route handler becomes a
function from the store state to the new store state plus a result.
-/

/-- `Math.round`: round half-up to the nearest integer, returned as a
rational so it can be stored back into a numeric field. -/
def jsRound (q : ℚ) : ℚ := ((⌊q + 1/2⌋ : ℤ) : ℚ)

/-- One `Rating` document (src/models/Rating.js).  `student` stands for
the ObjectId; `monthlyStats` and the timestamps are omitted: no claim
mentions them and no modelled operation reads them. -/
structure Rating where
  student : Nat
  grades : ℚ
  attendance : ℚ
  homeworkCompletion : ℚ
  classParticipation : ℚ
  totalScore : ℚ
  rankInGroup : Nat
  totalHomeworks : Nat
  completedHomeworks : Nat
  totalClasses : Nat
  attendedClasses : Nat
  participationCount : Nat
  averageGrade : ℚ
deriving Repr, DecidableEq

/-- The weighted total-score formula of the pre-save hook
(Rating.js lines 98-103): grades 40%, attendance 25%, homework 25%,
participation 10%, rounded half-up. -/
def weightedTotal (g a h c : ℚ) : ℚ :=
  jsRound (g * (4/10) + a * (25/100) + h * (25/100) + c * (1/10))

/-- `ratingSchema.pre('save')` (Rating.js lines 96-116).  The source
runs three assignments in order: `totalScore` from the current
component fields, then `homeworkCompletion` and `attendance`
re-derived from the counters when the corresponding totals are
positive.  The assignments only read fields they do not overwrite
beforehand (`totalScore` reads the components as they stood before the
save; the two percentage updates read only counters), so the
simultaneous record update below is exactly the sequential source.
`lastUpdated` is omitted (wall-clock time). -/
def preSaveHook (r : Rating) : Rating :=
  { r with
    totalScore :=
      weightedTotal r.grades r.attendance r.homeworkCompletion r.classParticipation,
    homeworkCompletion :=
      if 0 < r.totalHomeworks then
        jsRound ((r.completedHomeworks : ℚ) / (r.totalHomeworks : ℚ) * 10)
      else r.homeworkCompletion,
    attendance :=
      if 0 < r.totalClasses then
        jsRound ((r.attendedClasses : ℚ) / (r.totalClasses : ℚ) * 10)
      else r.attendance }

/-- A zeroed Rating row, as created at registration (all schema
defaults are 0). -/
def zeroRating (sid : Nat) : Rating :=
  ⟨sid, 0, 0, 0, 0, 0, 0, 0, 0, 0, 0, 0, 0⟩

/-- The row of claim C1's reproduction example: grades=8, attendance=6,
homeworkCompletion=10, classParticipation=4, all counters zero. -/
def c1ExampleRow : Rating :=
  { zeroRating 0 with grades := 8, attendance := 6, homeworkCompletion := 10, classParticipation := 4 }

/-- A row exhibiting the hook's statement order: the counters say every
homework was completed but the stored `homeworkCompletion` is still 0,
so the hook rewrites `homeworkCompletion` to 10 after having already
computed `totalScore` from the stale 0. -/
def staleRow : Rating :=
  { zeroRating 0 with totalHomeworks := 1, completedHomeworks := 1 }

/-- C1 counterexample: after a save of `staleRow`, the stored
`totalScore` (0) differs from the weighted formula applied to the
row's own stored (post-save) component fields, which is
round(10*0.25) = 3: the hook computes `totalScore` before refreshing
`homeworkCompletion` from the counters. -/
theorem c1_totalScore_not_from_stored_fields :
    (preSaveHook staleRow).totalScore ≠
      weightedTotal (preSaveHook staleRow).grades (preSaveHook staleRow).attendance
        (preSaveHook staleRow).homeworkCompletion (preSaveHook staleRow).classParticipation := by
  norm_num [preSaveHook, staleRow, zeroRating, weightedTotal, jsRound]

/-- C1 amended: after any save, the stored `totalScore` equals the
weighted half-up-rounded formula applied to the component fields the
row held at the start of the save (before `homeworkCompletion` and
`attendance` are re-derived from the counters); when
`totalHomeworks = 0` and `totalClasses = 0` the components are left
unchanged, and in particular the example row grades=8, attendance=6,
homeworkCompletion=10, classParticipation=4 with zero counters is
stored with totalScore = round(7.6) = 8. -/
theorem c1_totalScore_from_presave_fields :
    (∀ r : Rating, (preSaveHook r).totalScore =
        weightedTotal r.grades r.attendance r.homeworkCompletion r.classParticipation) ∧
      (preSaveHook c1ExampleRow).totalScore = 8 ∧
      (preSaveHook c1ExampleRow).grades = 8 ∧
      (preSaveHook c1ExampleRow).attendance = 6 ∧
      (preSaveHook c1ExampleRow).homeworkCompletion = 10 ∧
      (preSaveHook c1ExampleRow).classParticipation = 4 := by
  refine ⟨fun r => rfl, ?_, ?_, ?_, ?_, ?_⟩ <;>
    norm_num [preSaveHook, c1ExampleRow, zeroRating, weightedTotal, jsRound]

/-- C2: after any save, if `totalHomeworks > 0` the stored
`homeworkCompletion` equals round(completedHomeworks/totalHomeworks*10)
and otherwise it is unchanged; likewise, if `totalClasses > 0` the
stored `attendance` equals round(attendedClasses/totalClasses*10) and
otherwise it is unchanged. -/
theorem c2_percentages (r : Rating) :
    (0 < r.totalHomeworks →
      (preSaveHook r).homeworkCompletion =
        jsRound ((r.completedHomeworks : ℚ) / (r.totalHomeworks : ℚ) * 10)) ∧
    (r.totalHomeworks = 0 →
      (preSaveHook r).homeworkCompletion = r.homeworkCompletion) ∧
    (0 < r.totalClasses →
      (preSaveHook r).attendance =
        jsRound ((r.attendedClasses : ℚ) / (r.totalClasses : ℚ) * 10)) ∧
    (r.totalClasses = 0 →
      (preSaveHook r).attendance = r.attendance) := by
  refine ⟨fun h => ?_, fun h => ?_, fun h => ?_, fun h => ?_⟩ <;>
    simp [preSaveHook, h]

/-- C2 witness: on the `staleRow` example (1 of 1 homeworks completed,
no classes recorded) the saved row has homeworkCompletion
round(1/1*10) and attendance unchanged. -/
theorem c2_percentages_witness :
    (preSaveHook staleRow).homeworkCompletion =
        jsRound ((staleRow.completedHomeworks : ℚ) / (staleRow.totalHomeworks : ℚ) * 10) ∧
      (preSaveHook staleRow).attendance = staleRow.attendance :=
  ⟨(c2_percentages staleRow).1 (by decide),
   (c2_percentages staleRow).2.2.2 (by decide)⟩

/-- A student's graded homework submission as seen by the aggregator
(`updateStudentRating` in the homework route file): only `totalGrade`
is read, behind a JavaScript truthiness test, so a missing grade and a
grade of 0 both count as ungraded. -/
structure Submission where
  totalGrade : Option ℚ
deriving Repr, DecidableEq

/-- One homework of the group, reduced to the aggregated student's
view: whether that student has a submission on it. -/
structure HomeworkFact where
  submission : Option Submission
deriving Repr, DecidableEq

/-- The truthiness test `if (submission.totalGrade)`: a grade counts
only when present and nonzero. -/
def truthyGrade (s : Submission) : Option ℚ :=
  match s.totalGrade with
  | none => none
  | some v => if v = 0 then none else some v

/-- `updateStudentRating` (homework route file, lines 1527-1561):
walks every homework of the group, counts the student's submissions
and truthy grades, then stores `averageGrade` (0 when no truthy
grade), copies it into `grades`, stores the two homework counters, and
saves the row, which runs the pre-save hook. -/
def updateStudentRating (homeworks : List HomeworkFact) (r : Rating) : Rating :=
  let subs := homeworks.filterMap (·.submission)
  let graded := subs.filterMap truthyGrade
  let avg : ℚ := if 0 < graded.length then graded.sum / (graded.length : ℚ) else 0
  preSaveHook { r with
    averageGrade := avg,
    grades := avg,
    totalHomeworks := homeworks.length,
    completedHomeworks := subs.length }

/-- One homework, submitted by the student and graded 10. -/
def gradedFacts : List HomeworkFact := [⟨some ⟨some 10⟩⟩]

/-- C3 counterexample: recomputing twice with the identical facts does
not leave an identical row.  Starting from the zero row with one
graded homework, the first recompute stores totalScore 4 (the hook
still sees homeworkCompletion 0) and then sets homeworkCompletion to
10; the second recompute, with the same facts, stores totalScore 7. -/
theorem c3_recompute_not_idempotent :
    updateStudentRating gradedFacts (updateStudentRating gradedFacts (zeroRating 0)) ≠
      updateStudentRating gradedFacts (zeroRating 0) := by
  simp [updateStudentRating, gradedFacts, truthyGrade, preSaveHook, weightedTotal,
    zeroRating, Rating.mk.injEq]
  norm_num [jsRound]

/-- C3 amended: the aggregator is idempotent only from the second
application on: with the facts held fixed, the third recompute yields
exactly the row of the second (every field equal), while the first and
second may differ in `totalScore` because the save hook computes it
from the pre-save component fields. -/
theorem c3_recompute_idempotent_after_first (facts : List HomeworkFact) (r : Rating) :
    updateStudentRating facts (updateStudentRating facts (updateStudentRating facts r)) =
      updateStudentRating facts (updateStudentRating facts r) := by
  by_cases hH : 0 < facts.length <;> by_cases hC : 0 < r.totalClasses <;>
    simp [updateStudentRating, preSaveHook, hH, hC]

/-- The sort key of `.sort({ totalScore: -1 })`: higher total score
first. -/
def scoreGe (a b : Rating) : Prop := b.totalScore ≤ a.totalScore

instance : DecidableRel scoreGe := fun a b =>
  inferInstanceAs (Decidable (b.totalScore ≤ a.totalScore))

instance : IsTotal Rating scoreGe := ⟨fun a b => le_total b.totalScore a.totalScore⟩

instance : IsTrans Rating scoreGe := ⟨fun _ _ _ h1 h2 => le_trans h2 h1⟩

/-- `Rating.find({group}).sort({totalScore: -1})`: the group's rows in
insertion order, sorted by total score descending; ties keep insertion
order (stable sort). -/
def sortByScoreDesc (rs : List Rating) : List Rating :=
  List.insertionSort scoreGe rs

/-- The `forEach` pass of both ranking routes: assign
`rankInGroup = index + 1` along the sorted list. -/
def rankPass (rs : List Rating) : List Rating :=
  rs.enum.map (fun p => { p.2 with rankInGroup := p.1 + 1 })

/-- The `Promise.all(ratings.map(r => r.save()))` pass: every row is
saved, which runs the pre-save hook on it. -/
def savePass (rs : List Rating) : List Rating :=
  rs.map preSaveHook

/-- Store effect of GET /api/ratings/student/:studentId (ratings route,
lines 53-66) on the group's Rating rows: fetch sorted, re-rank, save
every row. -/
def getStudentRatingEffect (rs : List Rating) : List Rating :=
  savePass (rankPass (sortByScoreDesc rs))

/-- Store effect of GET /api/ratings/group/:groupId (ratings route,
lines 151-163) on the group's Rating rows: the same fetch-sorted,
re-rank, save-all sequence. -/
def getGroupRatingsEffect (rs : List Rating) : List Rating :=
  savePass (rankPass (sortByScoreDesc rs))

/-- Ranks assigned along `enumFrom n` are the consecutive integers
starting at `n + 1`. -/
theorem map_rank_enumFrom : ∀ (l : List Rating) (n : Nat),
    ((List.enumFrom n l).map (fun p => ({ p.2 with rankInGroup := p.1 + 1 } : Rating))).map
        (·.rankInGroup) = List.range' (n + 1) l.length
  | [], _ => rfl
  | _ :: l, n => by
    simpa [List.range'] using map_rank_enumFrom l (n + 1)

/-- The save hook never touches `rankInGroup`. -/
theorem preSaveHook_rankInGroup (r : Rating) :
    (preSaveHook r).rankInGroup = r.rankInGroup := rfl

/-- The three rows of claim C4's example, inserted in order A, B, C
with total scores 8, 8, 5. -/
def rowA : Rating := { zeroRating 1 with totalScore := 8 }

def rowB : Rating := { zeroRating 2 with totalScore := 8 }

def rowC : Rating := { zeroRating 3 with totalScore := 5 }

/-- C4: the resolve pass of the group route assigns `rankInGroup`
values that are exactly the dense sequence 1..N in sorted order, the
sorted order is by `totalScore` descending, it is a permutation of the
stored rows, ties keep insertion order (stability: a pair in key
order, in particular a tie, keeps its relative order), and on the
example rows A, B, C with scores 8, 8, 5 the assigned ranks are
A=1, B=2, C=3. -/
theorem c4_dense_stable_ranking :
    (∀ rs : List Rating,
        (getGroupRatingsEffect rs).map (·.rankInGroup) = List.range' 1 rs.length ∧
        (sortByScoreDesc rs).Sorted scoreGe ∧
        (sortByScoreDesc rs).Perm rs ∧
        (∀ a b : Rating, scoreGe a b → [a, b].Sublist rs →
          [a, b].Sublist (sortByScoreDesc rs))) ∧
      (getGroupRatingsEffect [rowA, rowB, rowC]).map
          (fun r => (r.student, r.rankInGroup)) = [(1, 1), (2, 2), (3, 3)] := by
  refine ⟨fun rs => ⟨?_, List.sorted_insertionSort scoreGe rs,
      List.perm_insertionSort scoreGe rs,
      fun a b hab hsub => List.pair_sublist_insertionSort hab hsub⟩, by decide⟩
  have hlen : (sortByScoreDesc rs).length = rs.length :=
    (List.perm_insertionSort scoreGe rs).length_eq
  calc (getGroupRatingsEffect rs).map (·.rankInGroup)
      = ((List.enumFrom 0 (sortByScoreDesc rs)).map
          (fun p => ({ p.2 with rankInGroup := p.1 + 1 } : Rating))).map (·.rankInGroup) := by
        simp [getGroupRatingsEffect, savePass, rankPass, List.map_map, List.enum,
          Function.comp, preSaveHook_rankInGroup]
    _ = List.range' 1 rs.length := by
        rw [map_rank_enumFrom, hlen]

/-- C4 witness: the universal part applied to the example rows: ranks
[1, 2, 3], sortedness and permutation of the sorted example list, and
stability applied to the tied pair A, B. -/
theorem c4_dense_stable_ranking_witness :
    (getGroupRatingsEffect [rowA, rowB, rowC]).map (·.rankInGroup) =
        List.range' 1 3 ∧
      [rowA, rowB].Sublist (sortByScoreDesc [rowA, rowB, rowC]) :=
  ⟨(c4_dense_stable_ranking.1 [rowA, rowB, rowC]).1,
   (c4_dense_stable_ranking.1 [rowA, rowB, rowC]).2.2.2 rowA rowB
     (by decide) (by decide)⟩

/-- One entry of `user.completedBonusTasks` (User.js).  The wall-clock
timestamp and the free-text proof and notes fields are omitted: the
route logic never reads them back. -/
structure CompletedTask where
  taskId : Nat
  pointsEarned : ℚ
deriving Repr, DecidableEq

/-- One entry of `user.achievements`.  The title and description
strings are abstracted to the completed-task count that fired the
badge (1, 5 or 10); `earnedAt` is omitted (wall-clock time). -/
structure Achievement where
  milestone : Nat
deriving Repr, DecidableEq

/-- A bonus task of the hard-coded `bonusTasksData` catalogue in the
bonus-tasks route: only `id` and `points` are read by the completion
logic; titles, categories, difficulties and time limits are never
consulted. -/
structure BonusTask where
  id : Nat
  points : ℚ
deriving Repr, DecidableEq

/-- The eight entries of `bonusTasksData`, ids 1..8 with their point
values. -/
def bonusTasksData : List BonusTask :=
  [⟨1, 10⟩, ⟨2, 25⟩, ⟨3, 15⟩, ⟨4, 50⟩, ⟨5, 30⟩, ⟨6, 40⟩, ⟨7, 35⟩, ⟨8, 20⟩]

/-- The slice of a student's User document read and written by the
points economy. -/
structure StudentState where
  points : ℚ
  completedBonusTasks : List CompletedTask
  achievements : List Achievement
deriving Repr, DecidableEq

/-- Errors of POST /api/bonus-tasks/:taskId/complete; the
express-validator 400 on malformed proof or notes is out of scope. -/
inductive CompleteError
  | notFound
  | alreadyCompleted
deriving Repr, DecidableEq

/-- POST /api/bonus-tasks/:taskId/complete (bonus-tasks route, lines
315-411): look the task up in the catalogue, reject when the task id
already appears in `completedBonusTasks`, otherwise append the
completion record, add the task's points, and when the new
completed-task count equals exactly 1, 5 or 10 append one achievement.
On an error the state is returned unchanged; on success the new state
and the points earned are returned. -/
def completeBonusTask (u : StudentState) (taskId : Nat) :
    StudentState × Except CompleteError ℚ :=
  match bonusTasksData.find? (fun t => t.id == taskId) with
  | none => (u, .error .notFound)
  | some task =>
    if u.completedBonusTasks.any (fun ct => ct.taskId == taskId) then
      (u, .error .alreadyCompleted)
    else
      let completed := u.completedBonusTasks ++ [⟨taskId, task.points⟩]
      let ach :=
        if completed.length = 1 then u.achievements ++ [⟨1⟩]
        else if completed.length = 5 then u.achievements ++ [⟨5⟩]
        else if completed.length = 10 then u.achievements ++ [⟨10⟩]
        else u.achievements
      (⟨u.points + task.points, completed, ach⟩, .ok task.points)

/-- Repeated completion calls for the same task id: apply the
state-changing part of `completeBonusTask` n times. -/
def iterateComplete (n : Nat) (u : StudentState) (taskId : Nat) : StudentState :=
  match n with
  | 0 => u
  | n + 1 => (completeBonusTask (iterateComplete n u taskId) taskId).1
/-- If the task id already appears in the student's completed-task
records (and the task exists in the catalogue), the completion call is
rejected with AlreadyCompleted and the state is unchanged. -/
theorem completeBonusTask_already (u : StudentState) (taskId : Nat)
    (hfind : (bonusTasksData.find? (fun t => t.id == taskId)).isSome)
    (hdone : 0 < u.completedBonusTasks.countP (fun ct => ct.taskId == taskId)) :
    completeBonusTask u taskId = (u, .error .alreadyCompleted) := by
  obtain ⟨task, htask⟩ := Option.isSome_iff_exists.mp hfind
  have hex : ∃ ct ∈ u.completedBonusTasks, ct.taskId = taskId := by
    rcases List.countP_pos_iff.mp hdone with ⟨ct, hmem, hct⟩
    exact ⟨ct, hmem, by simpa using hct⟩
  simp [completeBonusTask, htask, hex]

/-- C7: bonus-task credit is exactly-once per task id.  If the task
exists and the student has not completed it yet, then: every call on a
state whose records already contain the id is rejected with
AlreadyCompleted and returns that state unchanged; any positive number
of repeated calls leaves exactly the state of the first call; and
after any positive number of calls the balance has increased by the
task's points exactly once and the id appears exactly once in the
records. -/
theorem c7_exactly_once (u : StudentState) (taskId : Nat) (task : BonusTask)
    (hfind : bonusTasksData.find? (fun t => t.id == taskId) = some task)
    (hnew : u.completedBonusTasks.countP (fun ct => ct.taskId == taskId) = 0) :
    (∀ v : StudentState, 0 < v.completedBonusTasks.countP (fun ct => ct.taskId == taskId) →
        completeBonusTask v taskId = (v, .error .alreadyCompleted)) ∧
    (∀ n : Nat, iterateComplete (n + 1) u taskId = (completeBonusTask u taskId).1) ∧
    (∀ n : Nat, (iterateComplete (n + 1) u taskId).points = u.points + task.points) ∧
    (∀ n : Nat, (iterateComplete (n + 1) u taskId).completedBonusTasks.countP
        (fun ct => ct.taskId == taskId) = 1) := by
  have hex : ¬ ∃ ct ∈ u.completedBonusTasks, ct.taskId = taskId := by
    rintro ⟨ct, hmem, hct⟩
    have : 0 < u.completedBonusTasks.countP (fun ct => ct.taskId == taskId) :=
      List.countP_pos_iff.mpr ⟨ct, hmem, by simpa using hct⟩
    omega
  have hpts : (completeBonusTask u taskId).1.points = u.points + task.points := by
    simp [completeBonusTask, hfind, hex]
  have hcomp : (completeBonusTask u taskId).1.completedBonusTasks =
      u.completedBonusTasks ++ [⟨taskId, task.points⟩] := by
    simp [completeBonusTask, hfind, hex]
  have hcount1 : (completeBonusTask u taskId).1.completedBonusTasks.countP
      (fun ct => ct.taskId == taskId) = 1 := by
    rw [hcomp]
    simp [List.countP_append, hnew, List.countP_cons]
  have halready : ∀ v : StudentState,
      0 < v.completedBonusTasks.countP (fun ct => ct.taskId == taskId) →
      completeBonusTask v taskId = (v, .error .alreadyCompleted) := fun v hv =>
    completeBonusTask_already v taskId (by simp [hfind]) hv
  have hiter : ∀ n : Nat, iterateComplete (n + 1) u taskId = (completeBonusTask u taskId).1 := by
    intro n
    induction n with
    | zero => rfl
    | succ m ih =>
      show (completeBonusTask (iterateComplete (m + 1) u taskId) taskId).1 = _
      rw [ih, halready (completeBonusTask u taskId).1 (by rw [hcount1]; omega)]
  refine ⟨halready, hiter, fun n => ?_, fun n => ?_⟩
  · rw [hiter n, hpts]
  · rw [hiter n, hcount1]

/-- C7 witness: the spec's reproduction — from a fresh student,
completing taskId 3 (worth 15 points) twice: the second call is
rejected with AlreadyCompleted, and after both calls the balance is
0 + 15 and the record holds task 3 exactly once. -/
theorem c7_exactly_once_witness :
    completeBonusTask (iterateComplete 1 ⟨0, [], []⟩ 3) 3 =
        ((iterateComplete 1 ⟨0, [], []⟩ 3), .error .alreadyCompleted) ∧
      (iterateComplete 2 ⟨0, [], []⟩ 3).points = 0 + 15 ∧
      (iterateComplete 2 ⟨0, [], []⟩ 3).completedBonusTasks.countP
        (fun ct => ct.taskId == 3) = 1 := by
  have h := c7_exactly_once ⟨0, [], []⟩ 3 ⟨3, 15⟩ (by rfl) (by rfl)
  refine ⟨h.1 (iterateComplete 1 ⟨0, [], []⟩ 3) ?_, h.2.2.1 1, h.2.2.2 1⟩
  have h1 := h.2.2.2 0
  simp only [Nat.zero_add] at h1
  omega

/-- C8: a successful bonus-task completion appends exactly one
achievement when the completed-task count becomes exactly 1, 5 or 10,
and appends none for any other count; the previous achievements are
kept unchanged in place (never removed or duplicated). -/
theorem c8_achievement_milestones (u : StudentState) (taskId : Nat)
    (u2 : StudentState) (pts : ℚ)
    (hok : completeBonusTask u taskId = (u2, .ok pts)) :
    u2.achievements =
      u.achievements ++
        (if u.completedBonusTasks.length + 1 = 1 ∨ u.completedBonusTasks.length + 1 = 5 ∨
            u.completedBonusTasks.length + 1 = 10
         then [⟨u.completedBonusTasks.length + 1⟩] else []) := by
  rcases hfind : bonusTasksData.find? (fun t => t.id == taskId) with _ | task
  · simp [completeBonusTask, hfind] at hok
  · by_cases hex : ∃ ct ∈ u.completedBonusTasks, ct.taskId = taskId
    · simp [completeBonusTask, hfind, hex] at hok
    · have hu2 := hok.symm
      simp [completeBonusTask, hfind, hex, Prod.ext_iff] at hu2
      rw [hu2.1]
      dsimp only
      by_cases e0 : u.completedBonusTasks = []
      · simp [e0]
      · by_cases e4 : u.completedBonusTasks.length = 4
        · simp [e0, e4]
        · by_cases e9 : u.completedBonusTasks.length = 9
          · simp [e0, e4, e9]
          · simp [e0, e4, e9]

/-- C8 witness: a fresh student completing task 3 reaches count 1 and
gets exactly the first-completion achievement appended. -/
theorem c8_achievement_milestones_witness :
    (completeBonusTask ⟨0, [], []⟩ 3).1.achievements = [] ++ [⟨1⟩] := by
  have hrun : completeBonusTask ⟨0, [], []⟩ 3 =
      ((completeBonusTask ⟨0, [], []⟩ 3).1, .ok 15) := by
    simp [completeBonusTask, bonusTasksData]
  have h := c8_achievement_milestones ⟨0, [], []⟩ 3
    (completeBonusTask ⟨0, [], []⟩ 3).1 15 hrun
  simpa using h

/-- Status of one claim record (`claimedBy` entries, Reward.js); a new
record defaults to pending. -/
inductive ClaimStatus
  | pending
  | delivered
  | cancelled
deriving Repr, DecidableEq

/-- One entry of `reward.claimedBy` (Reward.js); `claimedAt` is
omitted (wall-clock time). -/
structure ClaimEntry where
  student : Nat
  status : ClaimStatus
deriving Repr, DecidableEq

/-- One `Reward` document (src/models/Reward.js).  Title, description,
image, category and the timestamps are omitted: the claim route never
reads them. -/
structure Reward where
  id : Nat
  pointsRequired : ℚ
  order : ℚ
  isActive : Bool
  claimedBy : List ClaimEntry
deriving Repr, DecidableEq

/-- The store slice touched by the reward claim route: the claiming
student's User document and the reward catalogue. -/
structure EconState where
  user : StudentState
  rewards : List Reward
deriving Repr, DecidableEq

/-- Errors of POST /api/rewards/:id/claim. -/
inductive ClaimError
  | notFound
  | insufficientPoints
  | alreadyClaimed
  | previousRewardRequired
deriving Repr, DecidableEq

/-- `Reward.findById(req.params.id)`. -/
def findReward (rws : List Reward) (rid : Nat) : Option Reward :=
  rws.find? (fun rw => rw.id == rid)

/-- Whether the student already has a claim record on the reward. -/
def hasClaim (rw : Reward) (uid : Nat) : Bool :=
  rw.claimedBy.any (fun c => c.student == uid)

/-- `Reward.findOne({ order: reward.order - 1, isActive: true })`:
`order` is unique, so at most one document matches. -/
def findPrevActive (rws : List Reward) (ord : ℚ) : Option Reward :=
  rws.find? (fun rw => rw.order == ord - 1 && rw.isActive)

/-- The *first* persisted write of a successful claim:
`User.findByIdAndUpdate(uid, { $inc: { points: -pointsRequired } })` —
only the balance changes, the catalogue is untouched. -/
def debitOnly (st : EconState) (amount : ℚ) : EconState :=
  { st with user := { st.user with points := st.user.points - amount } }

/-- The *second* persisted write: `reward.save()` with the in-memory
claim pushed — appends a pending claim record for the student onto the
reward with that id. -/
def persistClaim (st : EconState) (uid rid : Nat) : EconState :=
  { st with rewards :=
      st.rewards.map (fun rw =>
        if rw.id == rid then { rw with claimedBy := rw.claimedBy ++ [⟨uid, .pending⟩] }
        else rw) }

/-- POST /api/rewards/:id/claim (rewards route, lines 52-124): look
the reward up by id (its `isActive` flag is never consulted); reject
when the student's balance is below `pointsRequired`; reject when the
student already has a claim record on it; when an *active* reward with
`order - 1` exists and the student has no claim on it, reject;
otherwise debit the balance and append the claim record. -/
def claimReward (st : EconState) (uid rid : Nat) : EconState × Except ClaimError Unit :=
  match findReward st.rewards rid with
  | none => (st, .error .notFound)
  | some reward =>
    if st.user.points < reward.pointsRequired then (st, .error .insufficientPoints)
    else if hasClaim reward uid then (st, .error .alreadyClaimed)
    else
      match findPrevActive st.rewards reward.order with
      | some prev =>
        if hasClaim prev uid then
          (persistClaim (debitOnly st reward.pointsRequired) uid rid, .ok ())
        else (st, .error .previousRewardRequired)
      | none => (persistClaim (debitOnly st reward.pointsRequired) uid rid, .ok ())

/-- The sequence of store states observable during one claim call: on
any rejection, only the initial state; on success, the initial state,
then the state after the `findByIdAndUpdate` debit (the claim record
exists only in memory at that point), then the state after
`reward.save()`. -/
def claimRewardTrace (st : EconState) (uid rid : Nat) : List EconState :=
  match findReward st.rewards rid with
  | none => [st]
  | some reward =>
    if st.user.points < reward.pointsRequired then [st]
    else if hasClaim reward uid then [st]
    else
      match findPrevActive st.rewards reward.order with
      | some prev =>
        if hasClaim prev uid then
          [st, debitOnly st reward.pointsRequired,
            persistClaim (debitOnly st reward.pointsRequired) uid rid]
        else [st]
      | none =>
        [st, debitOnly st reward.pointsRequired,
          persistClaim (debitOnly st reward.pointsRequired) uid rid]

/-- An inactive reward: order 1, 5 points required, nobody has claimed
it. -/
def inactiveReward : Reward := ⟨1, 5, 1, false, []⟩

/-- A store with the inactive reward and a student holding 10 points. -/
def c5State : EconState := ⟨⟨10, [], []⟩, [inactiveReward]⟩

/-- C5 counterexample: the claim route never consults the claimed
reward's `isActive` flag — claiming the inactive reward succeeds,
where the claim as stated requires a NotFound failure for a reward
that is not active. -/
theorem c5_inactive_reward_claim_succeeds :
    inactiveReward.isActive = false ∧
      (claimReward c5State 7 1).2 = Except.ok () := by
  have h1 : ¬ ((10:ℚ) < 5) := by norm_num
  exact ⟨rfl, by
    simp [claimReward, c5State, inactiveReward, findReward, hasClaim, findPrevActive,
      List.find?, h1]⟩

/-- C5 amended: the checks run in this order, first failure winning:
(a) the reward exists by id — its `isActive` flag is not consulted —
else NotFound; (b) the balance is at least `pointsRequired`, else
InsufficientPoints; (c) the student has no claim record on it, else
AlreadyClaimed; (d) if an *active* reward with order−1 exists and the
student has no claim on it, PreviousRewardRequired; otherwise the
claim succeeds with the debit and the appended claim record. -/
theorem c5_check_order (st : EconState) (uid rid : Nat) :
    (findReward st.rewards rid = none →
      claimReward st uid rid = (st, .error .notFound)) ∧
    (∀ reward, findReward st.rewards rid = some reward →
      (st.user.points < reward.pointsRequired →
        claimReward st uid rid = (st, .error .insufficientPoints)) ∧
      (¬ st.user.points < reward.pointsRequired → hasClaim reward uid = true →
        claimReward st uid rid = (st, .error .alreadyClaimed)) ∧
      (¬ st.user.points < reward.pointsRequired → hasClaim reward uid = false →
        (∀ prev, findPrevActive st.rewards reward.order = some prev →
          hasClaim prev uid = false →
          claimReward st uid rid = (st, .error .previousRewardRequired)) ∧
        (findPrevActive st.rewards reward.order = none →
          claimReward st uid rid =
            (persistClaim (debitOnly st reward.pointsRequired) uid rid, .ok ())) ∧
        (∀ prev, findPrevActive st.rewards reward.order = some prev →
          hasClaim prev uid = true →
          claimReward st uid rid =
            (persistClaim (debitOnly st reward.pointsRequired) uid rid, .ok ())))) := by
  refine ⟨fun hnone => by simp [claimReward, hnone], fun reward hfind => ?_⟩
  refine ⟨fun hpts => by simp [claimReward, hfind, hpts], fun hpts hclaim => ?_,
    fun hpts hclaim => ?_⟩
  · simp [claimReward, hfind, hpts, hclaim]
  · refine ⟨fun prev hprev hpc => ?_, fun hprev => ?_, fun prev hprev hpc => ?_⟩
    · simp [claimReward, hfind, hpts, hclaim, hprev, hpc]
    · simp [claimReward, hfind, hpts, hclaim, hprev]
    · simp [claimReward, hfind, hpts, hclaim, hprev, hpc]

/-- The two-step reward chain of the spec's reproduction: order 1 and
order 2, both active and unclaimed; the student holds 100 points. -/
def chainR1 : Reward := ⟨1, 5, 1, true, []⟩

def chainR2 : Reward := ⟨2, 7, 2, true, []⟩

def chainState : EconState := ⟨⟨100, [], []⟩, [chainR1, chainR2]⟩

/-- C5 witness: claiming the order-2 reward before the order-1 reward
fails with PreviousRewardRequired, by the amended check-order theorem
applied to the concrete chain store. -/
theorem c5_check_order_witness :
    claimReward chainState 7 2 = (chainState, .error .previousRewardRequired) := by
  have hfind : findReward chainState.rewards 2 = some chainR2 := by
    simp [findReward, chainState, chainR1, chainR2, List.find?]
  have hpts : ¬ chainState.user.points < chainR2.pointsRequired := by
    show ¬ ((100:ℚ) < 7)
    norm_num
  have hsub : (2:ℚ) - 1 = 1 := by norm_num
  have hprev : findPrevActive chainState.rewards chainR2.order = some chainR1 := by
    simp [findPrevActive, chainState, chainR1, chainR2, List.find?, hsub]
  exact (((c5_check_order chainState 7 2).2 chainR2 hfind).2.2 hpts rfl).1
    chainR1 hprev rfl

/-- An active, unclaimed, chain-free reward worth 5 points, and a
store where the student holds 12 points. -/
def c6Reward : Reward := ⟨1, 5, 1, true, []⟩

def c6State : EconState := ⟨⟨12, [], []⟩, [c6Reward]⟩

/-- C6 counterexample: the debit and the claim append are two separate
store writes, and between them the store is observably in a
debited-but-unclaimed state: in the successful claim's trace, the
state after the first write has the balance already reduced by
`pointsRequired` while the reward catalogue — hence the claim record —
is unchanged. -/
theorem c6_partial_state_observable :
    claimRewardTrace c6State 7 1 =
        [c6State, debitOnly c6State 5, persistClaim (debitOnly c6State 5) 7 1] ∧
      (debitOnly c6State 5).user.points = c6State.user.points - c6Reward.pointsRequired ∧
      (debitOnly c6State 5).rewards = c6State.rewards ∧
      hasClaim c6Reward 7 = false ∧
      (claimReward c6State 7 1).2 = Except.ok () := by
  have h1 : ¬ ((12:ℚ) < 5) := by norm_num
  have h0 : ((1:ℚ) == (0:ℚ)) = false := by decide
  refine ⟨?_, rfl, rfl, rfl, ?_⟩ <;>
    simp [claimReward, claimRewardTrace, c6State, c6Reward, findReward, hasClaim,
      findPrevActive, List.find?, h1, h0, debitOnly, persistClaim]

/-- C6 amended: the claim operation runs its two mutations as two
separate persisted writes in debit-then-claim order.  When it runs to
completion both are persisted (the final state carries the debit and
the appended claim record); on any rejection nothing is written.  But
the pair is not atomic: the trace of a successful claim contains the
intermediate store state with the debit applied and the catalogue
still unchanged. -/
theorem c6_two_write_sequence (st : EconState) (uid rid : Nat) :
    (∀ e, (claimReward st uid rid).2 = .error e →
      claimRewardTrace st uid rid = [st] ∧ (claimReward st uid rid).1 = st) ∧
    (∀ reward, findReward st.rewards rid = some reward →
      (claimReward st uid rid).2 = .ok () →
      claimRewardTrace st uid rid =
        [st, debitOnly st reward.pointsRequired,
          persistClaim (debitOnly st reward.pointsRequired) uid rid] ∧
      (claimReward st uid rid).1 =
        persistClaim (debitOnly st reward.pointsRequired) uid rid ∧
      (debitOnly st reward.pointsRequired).rewards = st.rewards) := by
  rcases hfind : findReward st.rewards rid with _ | reward
  · exact ⟨fun e herr => by simp [claimReward, claimRewardTrace, hfind],
      fun reward hra => by simp at hra⟩
  · refine ⟨fun e herr => ?_, fun reward2 hfind2 hok => ?_⟩
    · by_cases hpts : st.user.points < reward.pointsRequired
      · simp [claimReward, claimRewardTrace, hfind, hpts]
      · cases hclaim : hasClaim reward uid
        · rcases hprev : findPrevActive st.rewards reward.order with _ | prev
          · simp [claimReward, hfind, hpts, hclaim, hprev] at herr
          · cases hpc : hasClaim prev uid
            · simp [claimReward, claimRewardTrace, hfind, hpts, hclaim, hprev, hpc]
            · simp [claimReward, hfind, hpts, hclaim, hprev, hpc] at herr
        · simp [claimReward, claimRewardTrace, hfind, hpts, hclaim]
    · cases hfind2
      by_cases hpts : st.user.points < reward.pointsRequired
      · simp [claimReward, hfind, hpts] at hok
      · cases hclaim : hasClaim reward uid
        · rcases hprev : findPrevActive st.rewards reward.order with _ | prev
          · refine ⟨?_, ?_, rfl⟩ <;>
              simp [claimReward, claimRewardTrace, hfind, hpts, hclaim, hprev]
          · cases hpc : hasClaim prev uid
            · simp [claimReward, hfind, hpts, hclaim, hprev, hpc] at hok
            · refine ⟨?_, ?_, rfl⟩ <;>
                simp [claimReward, claimRewardTrace, hfind, hpts, hclaim, hprev, hpc]
        · simp [claimReward, hfind, hpts, hclaim] at hok

/-- C6 witness: the amended two-write description applied to the
concrete successful claim on `c6State`. -/
theorem c6_two_write_sequence_witness :
    claimRewardTrace c6State 7 1 =
      [c6State, debitOnly c6State c6Reward.pointsRequired,
        persistClaim (debitOnly c6State c6Reward.pointsRequired) 7 1] := by
  have h1 : ¬ ((12:ℚ) < 5) := by norm_num
  have hfind : findReward c6State.rewards 1 = some c6Reward := by
    simp [findReward, c6State, c6Reward, List.find?]
  have h0 : ((1:ℚ) == (0:ℚ)) = false := by decide
  have hok : (claimReward c6State 7 1).2 = Except.ok () := by
    simp [claimReward, c6State, c6Reward, findReward, hasClaim, findPrevActive,
      List.find?, h1, h0]
  exact ((c6_two_write_sequence c6State 7 1).2 c6Reward hfind hok).1

/-- One point-balance-touching operation of the routes: a bonus-task
completion (credit) or a reward claim (debit). -/
inductive EconOp
  | completeTask (taskId : Nat)
  | claim (rewardId : Nat)
deriving Repr, DecidableEq

/-- Run one operation against the store, keeping only the resulting
state (the HTTP result is dropped). -/
def applyEconOp (uid : Nat) (st : EconState) (o : EconOp) : EconState :=
  match o with
  | .completeTask t => { st with user := (completeBonusTask st.user t).1 }
  | .claim rid => (claimReward st uid rid).1

/-- Run a sequence of operations left to right. -/
def applyEconOps (uid : Nat) (st : EconState) (ops : List EconOp) : EconState :=
  ops.foldl (applyEconOp uid) st

/-- Every catalogue bonus task is worth a non-negative number of
points. -/
theorem bonusTasksData_points_nonneg : ∀ t ∈ bonusTasksData, 0 ≤ t.points := by
  decide

/-- One operation preserves a non-negative balance: a completion adds
catalogue points (all non-negative) or leaves the state alone; a claim
either rejects, leaving the state alone, or debits an amount that the
balance was just checked to cover. -/
theorem applyEconOp_nonneg (uid : Nat) (st : EconState) (o : EconOp)
    (h : 0 ≤ st.user.points) : 0 ≤ (applyEconOp uid st o).user.points := by
  rcases o with t | rid
  · show 0 ≤ (completeBonusTask st.user t).1.points
    rcases hfind : bonusTasksData.find? (fun tk => tk.id == t) with _ | task
    · simpa [completeBonusTask, hfind] using h
    · by_cases hex : ∃ ct ∈ st.user.completedBonusTasks, ct.taskId = t
      · simpa [completeBonusTask, hfind, hex] using h
      · have htask : 0 ≤ task.points :=
          bonusTasksData_points_nonneg task (List.mem_of_find?_eq_some hfind)
        simpa [completeBonusTask, hfind, hex] using add_nonneg h htask
  · show 0 ≤ (claimReward st uid rid).1.user.points
    rcases hfind : findReward st.rewards rid with _ | reward
    · simpa [claimReward, hfind] using h
    · by_cases hpts : st.user.points < reward.pointsRequired
      · simpa [claimReward, hfind, hpts] using h
      · cases hclaim : hasClaim reward uid
        · rcases hprev : findPrevActive st.rewards reward.order with _ | prev
          · simpa [claimReward, hfind, hpts, hclaim, hprev, persistClaim, debitOnly] using
              sub_nonneg.mpr (le_of_not_lt hpts)
          · cases hpc : hasClaim prev uid
            · simpa [claimReward, hfind, hpts, hclaim, hprev, hpc] using h
            · simpa [claimReward, hfind, hpts, hclaim, hprev, hpc, persistClaim,
                debitOnly] using sub_nonneg.mpr (le_of_not_lt hpts)
        · simpa [claimReward, hfind, hpts, hclaim] using h

/-- C9: the balance never goes negative.  Starting from any store with
a non-negative balance, any sequence of completion and claim
operations ends with a non-negative balance; and a claim whose
`pointsRequired` exceeds the current balance is rejected with
InsufficientPoints and returns the store unchanged. -/
theorem c9_balance_never_negative (uid : Nat) :
    (∀ (ops : List EconOp) (st : EconState), 0 ≤ st.user.points →
      0 ≤ (applyEconOps uid st ops).user.points) ∧
    (∀ (st : EconState) (rid : Nat) (reward : Reward),
      findReward st.rewards rid = some reward →
      st.user.points < reward.pointsRequired →
      claimReward st uid rid = (st, .error .insufficientPoints)) := by
  constructor
  · intro ops
    induction ops with
    | nil => exact fun st h => h
    | cons o rest ih =>
      intro st h
      exact ih (applyEconOp uid st o) (applyEconOp_nonneg uid st o h)
  · intro st rid reward hfind hpts
    simp [claimReward, hfind, hpts]

/-- C9 witness: a student with 3 points cannot claim the 5-point
reward: the call is rejected with InsufficientPoints and the store is
unchanged; and the non-negativity invariant applied to that store and
a concrete operation sequence. -/
theorem c9_balance_never_negative_witness :
    claimReward ⟨⟨3, [], []⟩, [c6Reward]⟩ 7 1 =
        (⟨⟨3, [], []⟩, [c6Reward]⟩, .error .insufficientPoints) ∧
      0 ≤ (applyEconOps 7 ⟨⟨3, [], []⟩, [c6Reward]⟩
        [.completeTask 3, .claim 1]).user.points := by
  constructor
  · exact (c9_balance_never_negative 7).2 ⟨⟨3, [], []⟩, [c6Reward]⟩ 1 c6Reward
      (by simp [findReward, c6Reward, List.find?]) (by show (3:ℚ) < 5; norm_num)
  · exact (c9_balance_never_negative 7).1 [.completeTask 3, .claim 1]
      ⟨⟨3, [], []⟩, [c6Reward]⟩ (by norm_num)

/-- The rank/save pass writes back exactly the dense rank sequence
1..N, whatever the group contents. -/
theorem savePass_rankPass_rank_dense (rs : List Rating) :
    (savePass (rankPass (sortByScoreDesc rs))).map (·.rankInGroup) =
      List.range' 1 rs.length := by
  have hlen : (sortByScoreDesc rs).length = rs.length :=
    (List.perm_insertionSort scoreGe rs).length_eq
  calc (savePass (rankPass (sortByScoreDesc rs))).map (·.rankInGroup)
      = ((List.enumFrom 0 (sortByScoreDesc rs)).map
          (fun p => ({ p.2 with rankInGroup := p.1 + 1 } : Rating))).map (·.rankInGroup) := by
        simp [savePass, rankPass, List.map_map, List.enum, Function.comp,
          preSaveHook_rankInGroup]
    _ = List.range' 1 rs.length := by
        rw [map_rank_enumFrom, hlen]

/-- A stored row with a stale rank (0) and a stale total score (5,
while its components give round(8*0.4) = 3). -/
def c10Row : Rating := { zeroRating 4 with grades := 8, totalScore := 5 }

/-- C10: neither ratings read route is a pure read.  Both the
get-student-rating route and the group-rankings route apply the same
store effect: every Rating row of the group is re-ranked (ranks 1..N
along the sorted order) and saved, which re-runs the save-time
totalScore recomputation on each row.  On the concrete stale row the
read changes the store: the stored totalScore 5 is overwritten with
the recomputed 3 and the rank with 1. -/
theorem c10_reads_persist_rankings :
    (∀ rs : List Rating,
        getStudentRatingEffect rs = getGroupRatingsEffect rs ∧
        getStudentRatingEffect rs = (rankPass (sortByScoreDesc rs)).map preSaveHook ∧
        (getStudentRatingEffect rs).map (·.rankInGroup) = List.range' 1 rs.length) ∧
      getStudentRatingEffect [c10Row] ≠ [c10Row] ∧
      (getStudentRatingEffect [c10Row]).map (·.totalScore) = [3] ∧
      c10Row.totalScore = 5 := by
  refine ⟨fun rs => ⟨rfl, rfl, savePass_rankPass_rank_dense rs⟩, ?_, ?_,
    by norm_num [c10Row, zeroRating]⟩
  · intro heq
    have h2 : (getStudentRatingEffect [c10Row]).map (·.rankInGroup) =
        List.range' 1 [c10Row].length := savePass_rankPass_rank_dense [c10Row]
    rw [heq] at h2
    simp [c10Row, zeroRating, List.range'] at h2
  · simp [getStudentRatingEffect, savePass, rankPass, sortByScoreDesc, preSaveHook,
      weightedTotal, c10Row, zeroRating, List.enum]
    norm_num [jsRound]
